import Mathlib

/-!
Verification of the Kraken_Crypto analysis-and-backtest engine.

The trade simulator is translated from
Crypto_501_DEV_01_04_Backtest.py (function backtest_group); swing
detection, swing labeling and signal generation are translated from the
module-level loops of Crypto_005_DEV_01_02_Analysis.py.  Prices and
balances are modelled as rationals; Python round(x, n) is modelled as
rounding x * 10^n half to even, Python's documented tie rule.
-/

namespace KrakenCrypto

/-- Round a rational to the nearest integer, ties to even (Python round). -/
def rint (x : ℚ) : ℤ :=
  let f := Int.floor x
  if x - f < 1/2 then f
  else if 1/2 < x - f then f + 1
  else if f % 2 = 0 then f else f + 1

/-- Python round(x, n): round to n decimal places, ties to even. -/
def roundTo (n : ℕ) (x : ℚ) : ℚ := (rint (x * 10 ^ n) : ℚ) / 10 ^ n

/-- Trade direction, the source's strings 'long' / 'short'. -/
inductive Dir | long | short
deriving DecidableEq, Repr

/-- One input row of the source table: the fields backtest_group reads. -/
structure Bar where
  close : ℚ
  buySignal : Bool
  sellSignal : Bool
  lPtPercent : Option ℚ
  lSlPercent : Option ℚ
  sPtPercent : Option ℚ
  sSlPercent : Option ℚ
deriving DecidableEq, Repr

/-- The per-bar columns written by backtest_group (NaN cells are none). -/
structure Ledger where
  inTrade : Bool := false
  entryExit : Option ℚ := none
  longShort : Option Dir := none
  startingBalance : Option ℚ := none
  leverage : Option ℚ := none
  quantity : Option ℚ := none
  entryPrice : Option ℚ := none
  entryCost : Option ℚ := none
  exitPrice : Option ℚ := none
  exitCost : Option ℚ := none
  profitLoss : Option ℚ := none
  endingBalance : Option ℚ := none
  lPtPrice : Option ℚ := none
  lSlPrice : Option ℚ := none
  sPtPrice : Option ℚ := none
  sSlPrice : Option ℚ := none
deriving DecidableEq, Repr

/-- The loop-carried mutable locals of backtest_group. -/
structure St where
  in_trade : Bool
  current_balance : ℚ
  entry_price : ℚ
  quantity : ℚ
  entry_cost : ℚ
  pt_price : Option ℚ
  sl_price : Option ℚ
  trade_direction : Option Dir
  prev_entry_exit : Option ℚ
  prev_in_trade : Bool
deriving DecidableEq, Repr

/-- Fields stamped on every bar while a position is open
(source lines 216-227). -/
def carryLedger (lev : ℚ) (s : St) : Ledger :=
  { inTrade := true
    longShort := some (if s.trade_direction = some Dir.long then Dir.long else Dir.short)
    startingBalance := some (roundTo 2 s.current_balance)
    leverage := some lev
    quantity := some (roundTo 6 s.quantity)
    entryPrice := some (roundTo 2 s.entry_price)
    entryCost := some (roundTo 2 s.entry_cost)
    lPtPrice := if s.trade_direction = some Dir.long then s.pt_price.map (roundTo 3) else none
    lSlPrice := if s.trade_direction = some Dir.long then s.sl_price.map (roundTo 3) else none
    sPtPrice := if s.trade_direction = some Dir.short then s.pt_price.map (roundTo 3) else none
    sSlPrice := if s.trade_direction = some Dir.short then s.sl_price.map (roundTo 3) else none }

/-- hit_pt of the exit check (source lines 230-238): IEEE comparison
against a NaN profit-target price is False in the source, hence the none
branch. -/
def hit_pt (s : St) (b : Bar) : Bool :=
  if s.trade_direction = some Dir.long then
    match s.pt_price with | some p => decide (p ≤ b.close) | none => false
  else if s.trade_direction = some Dir.short then
    match s.pt_price with | some p => decide (b.close ≤ p) | none => false
  else false

/-- hit_sl of the exit check (source lines 230-238). -/
def hit_sl (s : St) (b : Bar) : Bool :=
  if s.trade_direction = some Dir.long then
    match s.sl_price with | some p => decide (b.close ≤ p) | none => false
  else if s.trade_direction = some Dir.short then
    match s.sl_price with | some p => decide (p ≤ b.close) | none => false
  else false

/-- The entry test of source line 259 given that in_trade is false:
can_enter together with a buy or sell signal on the bar. -/
def entryCond (s : St) (b : Bar) : Prop :=
  ((s.prev_entry_exit = none ∧ s.prev_in_trade = false) ∨
    (s.prev_entry_exit = some 2 ∧ s.prev_in_trade = true)) ∧
  (b.buySignal = true ∨ b.sellSignal = true)

instance (s : St) (b : Bar) : Decidable (entryCond s b) := by
  unfold entryCond; exact inferInstance

/-- One iteration of the bar loop of backtest_group (source lines 205-289):
the new loop state together with the ledger row written for this bar.
Rational division by zero is total (returns 0) where the source divides
unchecked. -/
def step (lev : ℚ) (s : St) (b : Bar) : St × Ledger :=
  if s.in_trade then
    let led := carryLedger lev s
    if hit_pt s b || hit_sl s b then
      let exit_cost := roundTo 2 (b.close * s.quantity)
      let profit_loss := roundTo 2 (exit_cost - s.entry_cost)
      let new_balance := s.current_balance + profit_loss
      ({ s with in_trade := false
                current_balance := new_balance
                prev_entry_exit := some 2
                prev_in_trade := true },
       { led with entryExit := some 2
                  exitPrice := some (roundTo 3 b.close)
                  exitCost := some exit_cost
                  profitLoss := some profit_loss
                  endingBalance := some (roundTo 2 new_balance) })
    else
      ({ s with prev_entry_exit := none, prev_in_trade := true }, led)
  else
    if entryCond s b then
      let q := s.current_balance * lev / b.close
      let ec := b.close * q
      let d : Dir := if b.buySignal then Dir.long else Dir.short
      let pt : Option ℚ :=
        if b.buySignal then b.lPtPercent.map (fun p => b.close * (1 + p / 100))
        else b.sPtPercent.map (fun p => b.close * (1 - p / 100))
      let sl : Option ℚ :=
        if b.buySignal then b.lSlPercent.map (fun p => b.close * (1 - |p| / 100))
        else b.sSlPercent.map (fun p => b.close * (1 + |p| / 100))
      ({ in_trade := true
         current_balance := s.current_balance
         entry_price := b.close
         quantity := q
         entry_cost := ec
         pt_price := pt
         sl_price := sl
         trade_direction := some d
         prev_entry_exit := some 1
         prev_in_trade := true },
       { inTrade := true
         entryExit := some 1
         longShort := some d
         startingBalance := some (roundTo 2 s.current_balance)
         leverage := some lev
         quantity := some (roundTo 6 q)
         entryPrice := some (roundTo 3 b.close)
         entryCost := some (roundTo 2 ec)
         lPtPrice := if b.buySignal then pt.map (roundTo 3) else none
         lSlPrice := if b.buySignal then sl.map (roundTo 3) else none
         sPtPrice := if b.buySignal then none else pt.map (roundTo 3)
         sSlPrice := if b.buySignal then none else sl.map (roundTo 3) })
    else
      ({ s with prev_entry_exit := none, prev_in_trade := false }, {})

/-- The bar loop of backtest_group as a fold emitting one ledger row per bar. -/
def runGroup (lev : ℚ) : St → List Bar → List Ledger
  | _, [] => []
  | s, b :: bs =>
    let sr := step lev s b
    sr.2 :: runGroup lev sr.1 bs

/-- Initial loop state of backtest_group (source lines 193-203). -/
def initSt (startingBalance : ℚ) : St :=
  { in_trade := false, current_balance := startingBalance, entry_price := 0
    quantity := 0, entry_cost := 0, pt_price := none, sl_price := none
    trade_direction := none, prev_entry_exit := none, prev_in_trade := false }

/-- backtest_group for one (symbol, timeframe) group. -/
def backtest_group (startingBalance lev : ℚ) (bars : List Bar) : List Ledger :=
  runGroup lev (initSt startingBalance) bars

/-! Swing detection, labeling and signal generation, translated from the
module-level loops of Crypto_005_DEV_01_02_Analysis.py. -/

/-- Maximum of a list of prices (pandas Series.max; none on an empty window,
whose NaN compares False in the source). -/
def listMax : List ℚ → Option ℚ
  | [] => none
  | x :: xs => some (match listMax xs with | none => x | some m => max x m)

/-- Minimum of a list of prices (pandas Series.min). -/
def listMin : List ℚ → Option ℚ
  | [] => none
  | x :: xs => some (match listMin xs with | none => x | some m => min x m)

/-- The trailing window of the source's slice xs.iloc[i - L : i]. -/
def window (xs : List ℚ) (i L : ℕ) : List ℚ := (xs.drop (i - L)).take L

/-- high.iloc[i] >= high.iloc[i - L : i].max(). -/
def hitHigh (xs : List ℚ) (L i : ℕ) : Bool :=
  match listMax (window xs i L) with
  | some m => decide (m ≤ xs.getD i 0)
  | none => false

/-- low.iloc[i] <= low.iloc[i - L : i].min(). -/
def hitLow (xs : List ℚ) (L i : ℕ) : Bool :=
  match listMin (window xs i L) with
  | some m => decide (xs.getD i 0 ≤ m)
  | none => false

/-- The swing-mark loop: one Bool per bar, carrying the index of the last
marked swing for the lookback-halved debounce (source lines 290-299).
rem counts bars left, i is the current bar index. -/
def marksGo (hit : ℕ → Bool) (L : ℕ) : ℕ → ℕ → Option ℕ → List Bool
  | 0, _, _ => []
  | rem + 1, i, last =>
    let mark := decide (L ≤ i) && hit i &&
      (match last with | none => true | some j => decide (L / 2 ≤ i - j))
    mark :: marksGo hit L rem (i + 1) (if mark then some i else last)

/-- is_swing_high per bar index. -/
def swingHighMarks (xs : List ℚ) (L : ℕ) : List Bool :=
  marksGo (hitHigh xs L) L xs.length 0 none

/-- is_swing_low per bar index. -/
def swingLowMarks (xs : List ℚ) (L : ℕ) : List Bool :=
  marksGo (hitLow xs L) L xs.length 0 none

/-- SwingType labels HH / LH / HL / LL. -/
inductive ST | HH | LH | HL | LL
deriving DecidableEq, Repr

/-- Label computed by the swing-high pass from the previous swing high
(source lines 310-319): None under the minimum-swing filter, else
HH when current > previous, LH otherwise. -/
def highType (enable : Bool) (minPct : ℚ) (prev cur : ℚ) : Option ST :=
  let pct := (cur - prev) / prev * 100
  if enable && decide (|pct| < minPct) then none
  else some (if prev < cur then ST.HH else ST.LH)

/-- Label computed by the swing-low pass (source lines 323-332):
LL when current < previous, HL otherwise. -/
def lowType (enable : Bool) (minPct : ℚ) (prev cur : ℚ) : Option ST :=
  let pct := (prev - cur) / prev * 100
  if enable && decide (|pct| < minPct) then none
  else some (if cur < prev then ST.LL else ST.HL)

/-- One labeling pass over the bar sequence: on marked bars the label is
(re)assigned from the previous marked value, unmarked bars keep their
current label.  The swing-high and swing-low passes are two runs of this. -/
def labelPass (mk : ℚ → ℚ → Option ST) :
    List ℚ → List Bool → List (Option ST) → Option ℚ → List (Option ST)
  | v :: vs, m :: ms, t :: ts, prev =>
    if m then (match prev with | none => none | some p => mk p v) ::
      labelPass mk vs ms ts (some v)
    else t :: labelPass mk vs ms ts prev
  | _, _, ts, _ => ts

/-- SwingType after the swing-high pass alone (intermediate state). -/
def typesAfterHighPass (hs : List ℚ) (L : ℕ) (enable : Bool) (minPct : ℚ) :
    List (Option ST) :=
  labelPass (highType enable minPct) hs (swingHighMarks hs L)
    (List.replicate hs.length none) none

/-- Final SwingType column: the swing-high pass, then the swing-low pass. -/
def analysisTypes (hs ls : List ℚ) (L : ℕ) (enable : Bool) (minPct : ℚ) :
    List (Option ST) :=
  labelPass (lowType enable minPct) ls (swingLowMarks ls L)
    (typesAfterHighPass hs L enable minPct) none

/-- A row of the swings frame used by signal detection: bar index,
IsSwingHigh flag and (non-null) SwingType. -/
structure Swing where
  idx : ℕ
  isHigh : Bool
  ty : ST
deriving DecidableEq, Repr

/-- swings = df[(IsSwingHigh | IsSwingLow) & SwingType.notna()]. -/
def swingsGo : ℕ → List Bool → List Bool → List (Option ST) → List Swing
  | i, h :: hs, l :: ls, t :: ts =>
    match t with
    | some ty => if h || l then ⟨i, h, ty⟩ :: swingsGo (i + 1) hs ls ts
                 else swingsGo (i + 1) hs ls ts
    | none => swingsGo (i + 1) hs ls ts
  | _, _, _, _ => []

/-- Entry mode: the source's strings "Ordered" / "Mixed". -/
inductive EMode | ordered | mixed
deriving DecidableEq, Repr

/-- Membership in the bullish up_types set {'HL', 'HH'}. -/
def upTy (t : ST) : Bool := t = ST.HL || t = ST.HH

/-- Membership in the bearish down_types set {'LH', 'LL'}. -/
def downTy (t : ST) : Bool := t = ST.LH || t = ST.LL

/-- Ordered-mode expected bullish types: HL at even positions, HH at odd. -/
def expectedUpTy (pl : ℕ) : List ST :=
  (List.range pl).map fun k => if k % 2 = 0 then ST.HL else ST.HH

/-- Ordered-mode expected bullish IsSwingHigh flags. -/
def expectedUpHigh (pl : ℕ) : List Bool :=
  (List.range pl).map fun k => if k % 2 = 0 then false else true

/-- Ordered-mode expected bearish types: LH at even positions, LL at odd. -/
def expectedDownTy (pl : ℕ) : List ST :=
  (List.range pl).map fun k => if k % 2 = 0 then ST.LH else ST.LL

/-- Ordered-mode expected bearish IsSwingHigh flags. -/
def expectedDownHigh (pl : ℕ) : List Bool :=
  (List.range pl).map fun k => if k % 2 = 0 then true else false

/-- The signal loop body (source lines 417-469), one iteration per pattern
end position j, threading last_buy_signal_idx / last_sell_signal_idx and
the BuySignal / SellSignal columns. -/
def sigGo (mode : EMode) (td pl : ℕ) (swings : List Swing) :
    ℕ → ℕ → Option ℕ → Option ℕ → List Bool → List Bool → List Bool × List Bool
  | 0, _, _, _, buys, sells => (buys, sells)
  | rem + 1, j, lastB, lastS, buys, sells =>
    let pattern := (swings.drop (j + 1 - pl)).take pl
    if pattern.length ≠ pl then
      sigGo mode td pl swings rem (j + 1) lastB lastS buys sells
    else
      let endIdx := (swings.getD j ⟨0, false, ST.HH⟩).idx
      let tys := pattern.map Swing.ty
      let ihs := pattern.map Swing.isHigh
      let doBuy : Bool :=
        if (td = 1 ∨ td = 3) ∧ ¬lastB = some endIdx then
          if tys.all upTy then
            if mode = EMode.ordered then
              decide (tys = expectedUpTy pl ∧ ihs = expectedUpHigh pl) &&
                decide (tys.getLast? = some ST.HL)
            else true
          else false
        else false
      let buys' := if doBuy then buys.set endIdx true else buys
      let lastB' := if doBuy then some endIdx else lastB
      let doSell : Bool :=
        if (td = 2 ∨ td = 3) ∧ ¬lastS = some endIdx ∧ doBuy = false then
          if tys.all downTy then
            if mode = EMode.ordered then
              decide (tys = expectedDownTy pl ∧ ihs = expectedDownHigh pl) &&
                decide (tys.getLast? = some ST.LH)
            else true
          else false
        else false
      let sells' := if doSell then sells.set endIdx true else sells
      let lastS' := if doSell then some endIdx else lastS
      sigGo mode td pl swings rem (j + 1) lastB' lastS' buys' sells'

/-- Signal detection over a whole (symbol, timeframe) group: from highs,
lows, the lookback, the min-swing filter, the Entry config integer
(1 = Ordered, 2 = Mixed, else disabled), EntryCount and TargetDirection
(1 = Long, 2 = Short, 3 = Both) to the BuySignal and SellSignal columns. -/
def signalColumns (hs ls : List ℚ) (L : ℕ) (enable : Bool) (minPct : ℚ)
    (entry entryCount td : ℕ) : List Bool × List Bool :=
  let n := hs.length
  let types := analysisTypes hs ls L enable minPct
  let swings := swingsGo 0 (swingHighMarks hs L) (swingLowMarks ls L) types
  let none0 := (List.replicate n false, List.replicate n false)
  if entry = 1 ∨ entry = 2 then
    let mode := if entry = 1 then EMode.ordered else EMode.mixed
    if 3 ≤ swings.length then
      let pl := 2 * entryCount + 1
      sigGo mode td pl swings (swings.length - (pl - 1)) (pl - 1) none none
        (List.replicate n false) (List.replicate n false)
    else none0
  else none0

/-- C3 short-run highs: lookback 2 yields swing highs exactly at indices
2, 5, 8 with values 100, 105, 102. -/
def c3Highs : List ℚ := [99, 98, 100, 99, 97, 105, 101, 100, 102]

/-- C3 short-run lows: strictly increasing, so no swing lows. -/
def c3Lows : List ℚ := [10, 11, 12, 13, 14, 15, 16, 17, 18]

/-- C3 extended highs: swing highs at 4, 8, 12 labeled none, HH, HH. -/
def c3ExtHighs : List ℚ := [50, 49, 48, 47, 60, 59, 58, 57, 70, 69, 68, 67, 80, 79, 78]

/-- C3 extended lows: swing lows at 2, 6, 10, 14 labeled none, HL, HL, HL,
so the labeled swings alternate HL, HH, HL, HH, HL. -/
def c3ExtLows : List ℚ := [30, 29, 20, 28, 29, 29, 21, 28, 29, 29, 22, 28, 29, 29, 23]

/-- C8 highs: swing highs at indices 2 and 5; the high pass labels bar 5 HH. -/
def c8Highs : List ℚ := [10, 9, 11, 8, 8, 12]

/-- C8 lows: swing lows at the same indices 2 and 5; the low pass labels
bar 5 LL, over the HH of the high pass. -/
def c8Lows : List ℚ := [5, 6, 4, 7, 7, 3]

/-- Placeholder ledger row used as getD default; all event fields empty. -/
def dLedger : Ledger := {}

/-- Placeholder bar used as getD default. -/
def dBar : Bar :=
  { close := 0, buySignal := false, sellSignal := false
    lPtPercent := none, lSlPercent := none, sPtPercent := none, sSlPercent := none }

/-- Checks that a list of entryExit events alternates starting from the
expected event e, entries (1.0) and exits (2.0) strictly interleaved. -/
def altFrom : ℚ → List ℚ → Bool
  | _, [] => true
  | e, x :: xs => decide (x = e) && altFrom (if e = 1 then 2 else 1) xs

/-- The entryExit events of a ledger with their bar positions, counting
from i. -/
def evRows : ℕ → List Ledger → List (ℕ × ℚ)
  | _, [] => []
  | i, r :: rs =>
    match r.entryExit with
    | some e => (i, e) :: evRows (i + 1) rs
    | none => evRows (i + 1) rs

/-- The two bars of the C1 trade-simulation scenario. -/
def c1Bars : List Bar :=
  [ { close := 100, buySignal := true, sellSignal := false
      lPtPercent := some 2, lSlPercent := some 2, sPtPercent := none, sSlPercent := none },
    { close := 103, buySignal := false, sellSignal := false
      lPtPercent := some 2, lSlPercent := some 2, sPtPercent := none, sSlPercent := none } ]

/-- C1: with starting balance 10000, leverage 1, long profit-target and
stop-loss percent both 2, a buy-signal entry at close 100 records
quantity 100, entryCost 10000, target price 102 and stop price 98, and a
following bar at close 103 exits with exitCost 10300, profitLoss 300 and
endingBalance 10300. -/
theorem C1_trade_simulation_scenario :
    ((backtest_group 10000 1 c1Bars).getD 0 dLedger).entryExit = some 1 ∧
    ((backtest_group 10000 1 c1Bars).getD 0 dLedger).quantity = some 100 ∧
    ((backtest_group 10000 1 c1Bars).getD 0 dLedger).entryCost = some 10000 ∧
    ((backtest_group 10000 1 c1Bars).getD 0 dLedger).lPtPrice = some 102 ∧
    ((backtest_group 10000 1 c1Bars).getD 0 dLedger).lSlPrice = some 98 ∧
    ((backtest_group 10000 1 c1Bars).getD 1 dLedger).entryExit = some 2 ∧
    ((backtest_group 10000 1 c1Bars).getD 1 dLedger).exitCost = some 10300 ∧
    ((backtest_group 10000 1 c1Bars).getD 1 dLedger).profitLoss = some 300 ∧
    ((backtest_group 10000 1 c1Bars).getD 1 dLedger).endingBalance = some 10300 := by
  norm_num [backtest_group, runGroup, step, carryLedger, initSt, c1Bars, roundTo,
    rint, dLedger, entryCond, hit_pt, hit_sl]

/-- C3 counterexample: with lookback 2, Mixed entry mode, entryCount 1 and
target direction Long, a series whose labeled swings are the five
alternations HL, HH, HL, HH, HL fires three buy signals, not exactly one:
each of the three overlapping all-ascending patterns fires on its own last
bar. -/
theorem C3_cex_three_buy_signals :
    (signalColumns c3ExtHighs c3ExtLows 2 false 0 2 1 1).1.count true = 3 ∧
    ¬(signalColumns c3ExtHighs c3ExtLows 2 false 0 2 1 1).1.count true = 1 := by
  decide

/-- C3 amended: the short run (swing highs at 2, 5, 8 valued 100, 105, 102,
the first swing unlabeled) fires no signal; the extension to five labeled
swings alternating HL/HH fires a buy signal on the last bar of each of the
three overlapping all-ascending patterns - bars 10, 12 and 14, including
the final pattern's last bar - and no sell signal. -/
theorem C3_round_trip_amended :
    swingHighMarks c3Highs 2 =
      [false, false, true, false, false, true, false, false, true] ∧
    c3Highs.getD 2 0 = 100 ∧ c3Highs.getD 5 0 = 105 ∧ c3Highs.getD 8 0 = 102 ∧
    analysisTypes c3Highs c3Lows 2 false 0 =
      [none, none, none, none, none, some ST.HH, none, none, some ST.LH] ∧
    signalColumns c3Highs c3Lows 2 false 0 2 1 1 =
      (List.replicate 9 false, List.replicate 9 false) ∧
    swingsGo 0 (swingHighMarks c3ExtHighs 2) (swingLowMarks c3ExtLows 2)
        (analysisTypes c3ExtHighs c3ExtLows 2 false 0) =
      [⟨6, false, ST.HL⟩, ⟨8, true, ST.HH⟩, ⟨10, false, ST.HL⟩,
        ⟨12, true, ST.HH⟩, ⟨14, false, ST.HL⟩] ∧
    (signalColumns c3ExtHighs c3ExtLows 2 false 0 2 1 1).1 =
      [false, false, false, false, false, false, false, false, false, false,
        true, false, true, false, true] ∧
    (signalColumns c3ExtHighs c3ExtLows 2 false 0 2 1 1).2 =
      List.replicate 15 false := by
  decide

/-- C8 counterexample: bar 5 of the series is marked both swing high and
swing low; the swing-high pass labels it HH and the subsequent swing-low
pass overwrites the label with LL. -/
theorem C8_cex_low_pass_overwrites :
    (swingHighMarks c8Highs 2).getD 5 false = true ∧
    (swingLowMarks c8Lows 2).getD 5 false = true ∧
    (typesAfterHighPass c8Highs 2 false 0).getD 5 none = some ST.HH ∧
    (analysisTypes c8Highs c8Lows 2 false 0).getD 5 none = some ST.LL := by
  decide

lemma labelPass_not_marked (mk : ℚ → ℚ → Option ST) :
    ∀ (vs : List ℚ) (ms : List Bool) (ts : List (Option ST)) (prev : Option ℚ)
      (i : ℕ), ms.getD i false = false →
      (labelPass mk vs ms ts prev).getD i none = ts.getD i none := by
  intro vs
  induction vs with
  | nil => intro ms ts prev i _; rfl
  | cons v vs ih =>
    intro ms ts prev i h
    cases ms with
    | nil => rfl
    | cons m ms' =>
      cases ts with
      | nil => rfl
      | cons t ts' =>
        cases i with
        | zero =>
          rw [List.getD_cons_zero] at h
          simp [labelPass, h]
        | succ i' =>
          rw [List.getD_cons_succ] at h
          cases m with
          | false =>
            have he : labelPass mk (v :: vs) (false :: ms') (t :: ts') prev =
                t :: labelPass mk vs ms' ts' prev := by simp [labelPass]
            rw [he, List.getD_cons_succ, List.getD_cons_succ]
            exact ih _ _ _ _ h
          | true =>
            have he : labelPass mk (v :: vs) (true :: ms') (t :: ts') prev =
                (match prev with | none => none | some p => mk p v) ::
                  labelPass mk vs ms' ts' (some v) := by simp [labelPass]
            rw [he, List.getD_cons_succ, List.getD_cons_succ]
            exact ih _ _ _ _ h

/-- C8 amended: a swingType label persists through the swing-low pass on
every bar not marked as a swing low; on a bar marked as both a swing high
and a swing low, the swing-low pass overwrites the swing-high label. -/
theorem C8_label_persistence_amended (hs ls : List ℚ) (L : ℕ) (enable : Bool)
    (minPct : ℚ) (i : ℕ) (h : (swingLowMarks ls L).getD i false = false) :
    (analysisTypes hs ls L enable minPct).getD i none =
      (typesAfterHighPass hs L enable minPct).getD i none :=
  labelPass_not_marked _ _ _ _ _ _ h

/-- C8 amended witness: bar 5 of the short C3 series is a labeled swing
high on a bar with no swing-low mark, and its label survives the low pass. -/
theorem C8_label_persistence_amended_witness :
    (analysisTypes c3Highs c3Lows 2 false 0).getD 5 none =
      (typesAfterHighPass c3Highs 2 false 0).getD 5 none :=
  C8_label_persistence_amended c3Highs c3Lows 2 false 0 5 (by decide)

lemma marksGo_length (hit : ℕ → Bool) (L : ℕ) :
    ∀ rem i last, (marksGo hit L rem i last).length = rem := by
  intro rem
  induction rem with
  | zero => intro i last; rfl
  | succ n ih => intro i last; simp [marksGo, ih]

lemma swingHighMarks_length (xs : List ℚ) (L : ℕ) :
    (swingHighMarks xs L).length = xs.length := marksGo_length _ _ _ _ _

lemma swingLowMarks_length (xs : List ℚ) (L : ℕ) :
    (swingLowMarks xs L).length = xs.length := marksGo_length _ _ _ _ _

lemma marksGo_spec (hit : ℕ → Bool) (L : ℕ) :
    ∀ rem i last k, (marksGo hit L rem i last).getD k false = true →
      L ≤ i + k ∧ hit (i + k) = true := by
  intro rem
  induction rem with
  | zero => intro i last k h; simp [marksGo] at h
  | succ n ih =>
    intro i last k h
    simp only [marksGo] at h
    cases k with
    | zero =>
      rw [List.getD_cons_zero] at h
      simp only [Bool.and_eq_true, decide_eq_true_eq] at h
      exact ⟨by simpa using h.1.1, h.1.2⟩
    | succ k' =>
      rw [List.getD_cons_succ] at h
      have h2 := ih (i + 1) _ k' h
      refine ⟨by omega, ?_⟩
      rw [show i + (k' + 1) = i + 1 + k' by omega]
      exact h2.2

/-- After a mark at index p, the next marks of the same kind keep the
debounce distance from p. -/
lemma marksGo_gap_last (hit : ℕ → Bool) (L : ℕ) :
    ∀ rem i p k, p ≤ i → (marksGo hit L rem i (some p)).getD k false = true →
      p + L / 2 ≤ i + k := by
  intro rem
  induction rem with
  | zero => intro i p k _ h; simp [marksGo] at h
  | succ n ih =>
    intro i p k hpi h
    simp only [marksGo] at h
    cases k with
    | zero =>
      rw [List.getD_cons_zero] at h
      simp only [Bool.and_eq_true, decide_eq_true_eq] at h
      omega
    | succ k' =>
      rw [List.getD_cons_succ] at h
      by_cases hm : (decide (L ≤ i) && hit i && decide (L / 2 ≤ i - p)) = true
      · rw [if_pos hm] at h
        have := ih (i + 1) i k' (by omega) h
        omega
      · rw [if_neg hm] at h
        have := ih (i + 1) p k' (by omega) h
        omega

/-- Any two marks produced by the swing-mark loop are at least the debounce
distance apart. -/
lemma marksGo_gap (hit : ℕ → Bool) (L : ℕ) :
    ∀ rem i last k1 k2, k1 < k2 →
      (marksGo hit L rem i last).getD k1 false = true →
      (marksGo hit L rem i last).getD k2 false = true →
      L / 2 ≤ k2 - k1 := by
  intro rem
  induction rem with
  | zero => intro i last k1 k2 _ h1 _; simp [marksGo] at h1
  | succ n ih =>
    intro i last k1 k2 hk h1 h2
    simp only [marksGo] at h1 h2
    cases k1 with
    | zero =>
      rw [List.getD_cons_zero] at h1
      obtain ⟨k2', rfl⟩ : ∃ k2', k2 = k2' + 1 := ⟨k2 - 1, by omega⟩
      rw [List.getD_cons_succ, if_pos h1] at h2
      have := marksGo_gap_last hit L n (i + 1) i k2' (by omega) h2
      omega
    | succ k1' =>
      obtain ⟨k2', rfl⟩ : ∃ k2', k2 = k2' + 1 := ⟨k2 - 1, by omega⟩
      rw [List.getD_cons_succ] at h1 h2
      have := ih (i + 1) _ k1' k2' (by omega) h1 h2
      omega

/-- C6: a marked swing high satisfies the lookback window condition. -/
theorem C6_swing_mark_conditions (highs lows : List ℚ) (L : ℕ) (hL : 1 ≤ L) (i : ℕ) :
    ((swingHighMarks highs L).getD i false = true →
      L ≤ i ∧ ∃ m, listMax (window highs i L) = some m ∧ m ≤ highs.getD i 0) ∧
    ((swingLowMarks lows L).getD i false = true →
      L ≤ i ∧ ∃ m, listMin (window lows i L) = some m ∧ lows.getD i 0 ≤ m) ∧
    (i < L → (swingHighMarks highs L).getD i false = false ∧
      (swingLowMarks lows L).getD i false = false) ∧
    (highs.length < L → (swingHighMarks highs L).getD i false = false) ∧
    (lows.length < L → (swingLowMarks lows L).getD i false = false) := by
  have hhi : (swingHighMarks highs L).getD i false = true →
      L ≤ i ∧ ∃ m, listMax (window highs i L) = some m ∧ m ≤ highs.getD i 0 := by
    intro h
    have hs := marksGo_spec (hitHigh highs L) L highs.length 0 none i h
    refine ⟨by simpa using hs.1, ?_⟩
    have hh := hs.2
    rw [show 0 + i = i by omega] at hh
    unfold hitHigh at hh
    rcases hm : listMax (window highs i L) with _ | m
    · rw [hm] at hh; simp at hh
    · rw [hm] at hh; simp only [decide_eq_true_eq] at hh; exact ⟨m, rfl, hh⟩
  have hlo : (swingLowMarks lows L).getD i false = true →
      L ≤ i ∧ ∃ m, listMin (window lows i L) = some m ∧ lows.getD i 0 ≤ m := by
    intro h
    have hs := marksGo_spec (hitLow lows L) L lows.length 0 none i h
    refine ⟨by simpa using hs.1, ?_⟩
    have hh := hs.2
    rw [show 0 + i = i by omega] at hh
    unfold hitLow at hh
    rcases hm : listMin (window lows i L) with _ | m
    · rw [hm] at hh; simp at hh
    · rw [hm] at hh; simp only [decide_eq_true_eq] at hh; exact ⟨m, rfl, hh⟩
  refine ⟨hhi, hlo, ?_, ?_, ?_⟩
  · intro hiL
    constructor
    · cases h : (swingHighMarks highs L).getD i false with
      | false => rfl
      | true => exact absurd (hhi h).1 (by omega)
    · cases h : (swingLowMarks lows L).getD i false with
      | false => rfl
      | true => exact absurd (hlo h).1 (by omega)
  · intro hlen
    by_cases hi : i < highs.length
    · cases h : (swingHighMarks highs L).getD i false with
      | false => rfl
      | true => exact absurd (hhi h).1 (by omega)
    · exact List.getD_eq_default _ _ (by rw [swingHighMarks_length]; omega)
  · intro hlen
    by_cases hi : i < lows.length
    · cases h : (swingLowMarks lows L).getD i false with
      | false => rfl
      | true => exact absurd (hlo h).1 (by omega)
    · exact List.getD_eq_default _ _ (by rw [swingLowMarks_length]; omega)

/-- C6 witness: on highs [0, 0, 1] with lookback 2, the mark at index 2
satisfies the window condition. -/
theorem C6_swing_mark_conditions_witness :
    2 ≤ 2 ∧ ∃ m, listMax (window ([0, 0, 1] : List ℚ) 2 2) = some m ∧
      m ≤ ([0, 0, 1] : List ℚ).getD 2 0 :=
  (C6_swing_mark_conditions ([0, 0, 1] : List ℚ) [] 2 (by omega) 2).1 (by decide)

/-- C7: two marked swing highs (or lows) are at least lookback-halved bars
apart; the debounce spacing uses rounding-down integer division. -/
theorem C7_swing_debounce (highs lows : List ℚ) (L i j : ℕ) (hij : i < j) :
    ((swingHighMarks highs L).getD i false = true →
      (swingHighMarks highs L).getD j false = true → L / 2 ≤ j - i) ∧
    ((swingLowMarks lows L).getD i false = true →
      (swingLowMarks lows L).getD j false = true → L / 2 ≤ j - i) :=
  ⟨fun h1 h2 => marksGo_gap (hitHigh highs L) L highs.length 0 none i j hij h1 h2,
   fun h1 h2 => marksGo_gap (hitLow lows L) L lows.length 0 none i j hij h1 h2⟩

/-- C7 witness: on highs [0, 0, 1, 1] with lookback 2, bars 2 and 3 are both
marked and their distance meets the debounce bound 2 / 2 = 1. -/
theorem C7_swing_debounce_witness :
    (swingHighMarks ([0, 0, 1, 1] : List ℚ) 2).getD 2 false = true ∧
    (swingHighMarks ([0, 0, 1, 1] : List ℚ) 2).getD 3 false = true ∧
    2 / 2 ≤ 3 - 2 :=
  ⟨by decide, by decide,
    (C7_swing_debounce ([0, 0, 1, 1] : List ℚ) [] 2 2 3 (by omega)).1
      (by decide) (by decide)⟩

/-- Every step of the simulator either records no event and keeps the
position state, records an entry out of the flat state, or records an exit
out of the in-trade state. -/
lemma step_cases (lev : ℚ) (s : St) (b : Bar) :
    ((step lev s b).2.entryExit = none ∧ (step lev s b).1.in_trade = s.in_trade) ∨
    ((step lev s b).2.entryExit = some 1 ∧ s.in_trade = false ∧
      (step lev s b).1.in_trade = true) ∨
    ((step lev s b).2.entryExit = some 2 ∧ s.in_trade = true ∧
      (step lev s b).1.in_trade = false) := by
  by_cases hs : s.in_trade = true
  · simp only [step]
    rw [if_pos hs]
    by_cases hh : (hit_pt s b || hit_sl s b) = true
    · rw [if_pos hh]; right; right; exact ⟨rfl, hs, rfl⟩
    · rw [if_neg hh]; left; exact ⟨rfl, rfl⟩
  · have hs0 : s.in_trade = false := by revert hs; cases s.in_trade <;> simp
    simp only [step]
    rw [if_neg hs]
    by_cases hc : entryCond s b
    · rw [if_pos hc]; right; left; exact ⟨rfl, hs0, rfl⟩
    · rw [if_neg hc]; left; exact ⟨rfl, rfl⟩

/-- An entry event is recorded only from the flat state, only when the
previous-bar guard holds and only on a bar with a buy or sell signal. -/
lemma step_entry_details (lev : ℚ) (s : St) (b : Bar)
    (h : (step lev s b).2.entryExit = some 1) :
    s.in_trade = false ∧
    ((s.prev_entry_exit = none ∧ s.prev_in_trade = false) ∨
      (s.prev_entry_exit = some 2 ∧ s.prev_in_trade = true)) ∧
    (b.buySignal = true ∨ b.sellSignal = true) := by
  by_cases hs : s.in_trade = true
  · exfalso
    simp only [step] at h
    rw [if_pos hs] at h
    by_cases hh : (hit_pt s b || hit_sl s b) = true
    · rw [if_pos hh] at h
      simp only [Option.some.injEq] at h
      exact absurd h (by norm_num)
    · rw [if_neg hh] at h
      simp only [carryLedger] at h
      exact Option.noConfusion h
  · have hs0 : s.in_trade = false := by revert hs; cases s.in_trade <;> simp
    simp only [step] at h
    rw [if_neg hs] at h
    by_cases hc : entryCond s b
    · exact ⟨hs0, hc.1, hc.2⟩
    · rw [if_neg hc] at h
      exact absurd h (Option.noConfusion)

/-- The loop state's previous-bar trackers always equal the entryExit and
InTrade cells just written (source lines 249-250 and 287-289). -/
lemma step_prev (lev : ℚ) (s : St) (b : Bar) :
    (step lev s b).1.prev_entry_exit = (step lev s b).2.entryExit ∧
    (step lev s b).1.prev_in_trade = (step lev s b).2.inTrade := by
  by_cases hs : s.in_trade = true
  · simp only [step]
    rw [if_pos hs]
    by_cases hh : (hit_pt s b || hit_sl s b) = true
    · rw [if_pos hh]; exact ⟨rfl, rfl⟩
    · rw [if_neg hh]; exact ⟨rfl, rfl⟩
  · simp only [step]
    rw [if_neg hs]
    by_cases hc : entryCond s b
    · rw [if_pos hc]; exact ⟨rfl, rfl⟩
    · rw [if_neg hc]; exact ⟨rfl, rfl⟩

lemma evRows_ge (rs : List Ledger) : ∀ i, ∀ p ∈ evRows i rs, i ≤ p.1 := by
  induction rs with
  | nil => intro i p hp; simp [evRows] at hp
  | cons r rs ih =>
    intro i p hp
    simp only [evRows] at hp
    cases he : r.entryExit with
    | none =>
      rw [he] at hp
      exact Nat.le_of_succ_le (ih (i + 1) p hp)
    | some e =>
      rw [he] at hp
      rcases List.mem_cons.mp hp with h | h
      · rw [h]
      · exact Nat.le_of_succ_le (ih (i + 1) p h)

lemma evRows_pairwise (rs : List Ledger) :
    ∀ i, (evRows i rs).Pairwise (fun p q => p.1 < q.1) := by
  induction rs with
  | nil => intro i; simp [evRows]
  | cons r rs ih =>
    intro i
    simp only [evRows]
    cases he : r.entryExit with
    | none => exact ih (i + 1)
    | some e =>
      refine List.Pairwise.cons ?_ (ih (i + 1))
      intro q hq
      have := evRows_ge rs (i + 1) q hq
      show i < q.1
      omega

/-- The event stream of a simulator run alternates: started flat the next
event is an entry, started in-trade the next event is an exit. -/
lemma runGroup_alt (lev : ℚ) :
    ∀ (bars : List Bar) (s : St),
      (s.in_trade = false →
        altFrom 1 ((runGroup lev s bars).filterMap Ledger.entryExit) = true) ∧
      (s.in_trade = true →
        altFrom 2 ((runGroup lev s bars).filterMap Ledger.entryExit) = true) := by
  intro bars
  induction bars with
  | nil => intro s; exact ⟨fun _ => rfl, fun _ => rfl⟩
  | cons b bs ih =>
    intro s
    have hrun : runGroup lev s (b :: bs) =
        (step lev s b).2 :: runGroup lev (step lev s b).1 bs := rfl
    rcases step_cases lev s b with ⟨he, hi⟩ | ⟨he, hsf, hi⟩ | ⟨he, hst, hi⟩
    · constructor <;> intro hs
      · rw [hrun, List.filterMap_cons, he]
        exact (ih _).1 (by rw [hi, hs])
      · rw [hrun, List.filterMap_cons, he]
        exact (ih _).2 (by rw [hi, hs])
    · constructor <;> intro hs
      · rw [hrun, List.filterMap_cons, he]
        simp only [altFrom, Bool.and_eq_true, decide_eq_true_eq]
        refine ⟨trivial, ?_⟩
        rw [if_pos trivial]
        exact (ih _).2 hi
      · rw [hsf] at hs; exact Bool.noConfusion hs
    · constructor <;> intro hs
      · rw [hst] at hs; exact Bool.noConfusion hs
      · rw [hrun, List.filterMap_cons, he]
        simp only [altFrom, Bool.and_eq_true, decide_eq_true_eq]
        refine ⟨trivial, ?_⟩
        rw [if_neg (by norm_num)]
        exact (ih _).1 hi

/-- C4: in every simulated group the entryExit events alternate entry,
exit, entry, exit, ... starting with an entry - so no two entries occur
without an intervening exit - and the events occur on strictly increasing
bar positions, so an exit and the following entry are never on the same
bar. -/
theorem C4_single_position_alternation (sb lev : ℚ) (bars : List Bar) :
    altFrom 1 ((backtest_group sb lev bars).filterMap Ledger.entryExit) = true ∧
    (evRows 0 (backtest_group sb lev bars)).Pairwise (fun p q => p.1 < q.1) :=
  ⟨(runGroup_alt lev bars (initSt sb)).1 rfl,
    evRows_pairwise (backtest_group sb lev bars) 0⟩

/-- Every exit row of a run started flat is preceded by an entry row on a
strictly earlier bar with no event rows between them; in a run started
in-trade the first exit may instead close the inherited position. -/
lemma runGroup_exit_entry (lev : ℚ) :
    ∀ (bars : List Bar) (s : St),
      (s.in_trade = false → ∀ i,
        ((runGroup lev s bars).getD i dLedger).entryExit = some 2 →
        ∃ j, j < i ∧ ((runGroup lev s bars).getD j dLedger).entryExit = some 1 ∧
          ∀ k, j < k → k < i →
            ((runGroup lev s bars).getD k dLedger).entryExit = none) ∧
      (s.in_trade = true → ∀ i,
        ((runGroup lev s bars).getD i dLedger).entryExit = some 2 →
        (∀ k, k < i → ((runGroup lev s bars).getD k dLedger).entryExit = none) ∨
        (∃ j, j < i ∧ ((runGroup lev s bars).getD j dLedger).entryExit = some 1 ∧
          ∀ k, j < k → k < i →
            ((runGroup lev s bars).getD k dLedger).entryExit = none)) := by
  intro bars
  induction bars with
  | nil =>
    intro s
    constructor <;> intro _ i h <;> simp [runGroup, List.getD_nil, dLedger] at h
  | cons b bs ih =>
    intro s
    have hrun : runGroup lev s (b :: bs) =
        (step lev s b).2 :: runGroup lev (step lev s b).1 bs := rfl
    rcases step_cases lev s b with ⟨he, hi⟩ | ⟨he, hsf, hi⟩ | ⟨he, hst, hi⟩
    · -- no event on this bar; position state carried
      constructor <;> intro hs i h
      · cases i with
        | zero =>
          rw [hrun, List.getD_cons_zero] at h
          exact absurd (he.symm.trans h) (fun hx => Option.noConfusion hx)
        | succ i' =>
          rw [hrun, List.getD_cons_succ] at h
          obtain ⟨j, hj, hj1, hmid⟩ := (ih _).1 (by rw [hi, hs]) i' h
          refine ⟨j + 1, by omega, ?_, ?_⟩
          · rw [hrun, List.getD_cons_succ]; exact hj1
          · intro k hk1 hk2
            obtain ⟨k', rfl⟩ : ∃ k', k = k' + 1 := ⟨k - 1, by omega⟩
            rw [hrun, List.getD_cons_succ]
            exact hmid k' (by omega) (by omega)
      · cases i with
        | zero =>
          rw [hrun, List.getD_cons_zero] at h
          exact absurd (he.symm.trans h) (fun hx => Option.noConfusion hx)
        | succ i' =>
          rw [hrun, List.getD_cons_succ] at h
          rcases (ih _).2 (by rw [hi, hs]) i' h with hall | ⟨j, hj, hj1, hmid⟩
          · left
            intro k hk
            cases k with
            | zero => rw [hrun, List.getD_cons_zero]; exact he
            | succ k' =>
              rw [hrun, List.getD_cons_succ]
              exact hall k' (by omega)
          · right
            refine ⟨j + 1, by omega, ?_, ?_⟩
            · rw [hrun, List.getD_cons_succ]; exact hj1
            · intro k hk1 hk2
              obtain ⟨k', rfl⟩ : ∃ k', k = k' + 1 := ⟨k - 1, by omega⟩
              rw [hrun, List.getD_cons_succ]
              exact hmid k' (by omega) (by omega)
    · -- entry on this bar
      constructor <;> intro hs i h
      · cases i with
        | zero =>
          rw [hrun, List.getD_cons_zero] at h
          have := he.symm.trans h
          rw [Option.some.injEq] at this
          exact absurd this (by norm_num)
        | succ i' =>
          rw [hrun, List.getD_cons_succ] at h
          rcases (ih _).2 hi i' h with hall | ⟨j, hj, hj1, hmid⟩
          · refine ⟨0, by omega, ?_, ?_⟩
            · rw [hrun, List.getD_cons_zero]; exact he
            · intro k hk1 hk2
              obtain ⟨k', rfl⟩ : ∃ k', k = k' + 1 := ⟨k - 1, by omega⟩
              rw [hrun, List.getD_cons_succ]
              exact hall k' (by omega)
          · refine ⟨j + 1, by omega, ?_, ?_⟩
            · rw [hrun, List.getD_cons_succ]; exact hj1
            · intro k hk1 hk2
              obtain ⟨k', rfl⟩ : ∃ k', k = k' + 1 := ⟨k - 1, by omega⟩
              rw [hrun, List.getD_cons_succ]
              exact hmid k' (by omega) (by omega)
      · rw [hsf] at hs; exact Bool.noConfusion hs
    · -- exit on this bar
      constructor <;> intro hs i h
      · rw [hst] at hs; exact Bool.noConfusion hs
      · cases i with
        | zero =>
          left
          intro k hk
          exact absurd hk (by omega)
        | succ i' =>
          rw [hrun, List.getD_cons_succ] at h
          obtain ⟨j, hj, hj1, hmid⟩ := (ih _).1 hi i' h
          right
          refine ⟨j + 1, by omega, ?_, ?_⟩
          · rw [hrun, List.getD_cons_succ]; exact hj1
          · intro k hk1 hk2
            obtain ⟨k', rfl⟩ : ∃ k', k = k' + 1 := ⟨k - 1, by omega⟩
            rw [hrun, List.getD_cons_succ]
            exact hmid k' (by omega) (by omega)

/-- C10: an exit (entryExit = 2.0) is recorded only on a bar strictly after
the bar of its entry (entryExit = 1.0), with no other event rows in
between - so a bar never records an exit for a position entered on that
same bar and every completed trade spans at least two bars; this holds for
every bar sequence, including ones whose entry close already satisfies the
profit-target or stop-loss condition. -/
theorem C10_exit_never_on_entry_bar (sb lev : ℚ) (bars : List Bar) (i : ℕ)
    (h : ((backtest_group sb lev bars).getD i dLedger).entryExit = some 2) :
    ∃ j, j < i ∧ ((backtest_group sb lev bars).getD j dLedger).entryExit = some 1 ∧
      ∀ k, j < k → k < i →
        ((backtest_group sb lev bars).getD k dLedger).entryExit = none :=
  (runGroup_exit_entry lev bars (initSt sb)).1 rfl i h

/-- An entry row can be written only on a bar carrying a buy or sell
signal. -/
lemma runGroup_entry_signal (lev : ℚ) :
    ∀ (bars : List Bar) (s : St) (i : ℕ),
      ((runGroup lev s bars).getD i dLedger).entryExit = some 1 →
      ((bars.getD i dBar).buySignal = true ∨ (bars.getD i dBar).sellSignal = true) := by
  intro bars
  induction bars with
  | nil => intro s i h; simp [runGroup, List.getD_nil, dLedger] at h
  | cons b bs ih =>
    intro s i h
    have hrun : runGroup lev s (b :: bs) =
        (step lev s b).2 :: runGroup lev (step lev s b).1 bs := rfl
    cases i with
    | zero =>
      rw [hrun, List.getD_cons_zero] at h
      rw [List.getD_cons_zero]
      exact (step_entry_details lev s b h).2.2
    | succ i' =>
      rw [hrun, List.getD_cons_succ] at h
      rw [List.getD_cons_succ]
      exact ih _ i' h

/-- An entry row written after bar 0 is guarded by the previous bar's
recorded entryExit and InTrade cells: the previous bar either recorded no
event while flat, or recorded an exit while flagged in-trade. -/
lemma runGroup_entry_prev (lev : ℚ) :
    ∀ (bars : List Bar) (s : St) (i : ℕ),
      ((runGroup lev s bars).getD (i + 1) dLedger).entryExit = some 1 →
      ((((runGroup lev s bars).getD i dLedger).entryExit = none ∧
          ((runGroup lev s bars).getD i dLedger).inTrade = false) ∨
        (((runGroup lev s bars).getD i dLedger).entryExit = some 2 ∧
          ((runGroup lev s bars).getD i dLedger).inTrade = true)) := by
  intro bars
  induction bars with
  | nil => intro s i h; simp [runGroup, List.getD_nil, dLedger] at h
  | cons b bs ih =>
    intro s i h
    have hrun : runGroup lev s (b :: bs) =
        (step lev s b).2 :: runGroup lev (step lev s b).1 bs := rfl
    cases i with
    | zero =>
      rw [hrun, List.getD_cons_succ] at h
      rw [hrun, List.getD_cons_zero]
      cases bs with
      | nil => simp [runGroup, List.getD_nil, dLedger] at h
      | cons b2 bs2 =>
        have hrun2 : runGroup lev (step lev s b).1 (b2 :: bs2) =
            (step lev (step lev s b).1 b2).2 ::
              runGroup lev (step lev (step lev s b).1 b2).1 bs2 := rfl
        rw [hrun2, List.getD_cons_zero] at h
        have hd := (step_entry_details lev _ b2 h).2.1
        have hp := step_prev lev s b
        rw [hp.1, hp.2] at hd
        exact hd
    | succ i' =>
      rw [hrun, List.getD_cons_succ] at h
      rw [hrun, List.getD_cons_succ]
      exact ih _ i' h

/-- C2 (amended): a position opens only on a bar with a buy or sell signal,
and - except on the very first bar - only when the previous bar's ledger
row either shows no event and no open position, or shows an exit
(entryExit = 2.0) while flagged InTrade.  The guard holds on every bar on
which the simulator is flat, so entry is not restricted to the start of
history or to the bar immediately after an exit. -/
theorem C2_entry_guard (sb lev : ℚ) (bars : List Bar) (i : ℕ)
    (h : ((backtest_group sb lev bars).getD i dLedger).entryExit = some 1) :
    ((bars.getD i dBar).buySignal = true ∨ (bars.getD i dBar).sellSignal = true) ∧
    (i = 0 ∨
      ((((backtest_group sb lev bars).getD (i - 1) dLedger).entryExit = none ∧
          ((backtest_group sb lev bars).getD (i - 1) dLedger).inTrade = false) ∨
        (((backtest_group sb lev bars).getD (i - 1) dLedger).entryExit = some 2 ∧
          ((backtest_group sb lev bars).getD (i - 1) dLedger).inTrade = true))) := by
  refine ⟨runGroup_entry_signal lev bars _ i h, ?_⟩
  cases i with
  | zero => exact Or.inl rfl
  | succ i' => exact Or.inr (runGroup_entry_prev lev bars _ i' h)

/-- C2 counterexample bars: a trade opens on bar 0 (profit target percent 0
makes the target equal the close), closes on bar 1, bar 2 is idle, and a
fresh buy signal arrives on bar 3. -/
def c2CexBars : List Bar :=
  [ { close := 100, buySignal := true, sellSignal := false
      lPtPercent := some 0, lSlPercent := some 50, sPtPercent := none, sSlPercent := none },
    { close := 100, buySignal := false, sellSignal := false
      lPtPercent := some 0, lSlPercent := some 50, sPtPercent := none, sSlPercent := none },
    { close := 100, buySignal := false, sellSignal := false
      lPtPercent := some 0, lSlPercent := some 50, sPtPercent := none, sSlPercent := none },
    { close := 100, buySignal := true, sellSignal := false
      lPtPercent := some 2, lSlPercent := some 2, sPtPercent := none, sSlPercent := none } ]

/-- C2 counterexample: the simulator enters on bar 3 even though bar 3 is
not the start of history, the immediately preceding bar 2 recorded no
exit, and a trade had already closed on bar 1 - refuting the reading that
entry is allowed only immediately at the start of history or immediately
after a completed exit, never after skipping bars. -/
theorem C2_cex_entry_after_gap :
    ((backtest_group 10000 1 c2CexBars).getD 3 dLedger).entryExit = some 1 ∧
    ((backtest_group 10000 1 c2CexBars).getD 2 dLedger).entryExit = none ∧
    ((backtest_group 10000 1 c2CexBars).getD 2 dLedger).inTrade = false ∧
    ((backtest_group 10000 1 c2CexBars).getD 1 dLedger).entryExit = some 2 := by
  norm_num [backtest_group, runGroup, step, carryLedger, initSt, c2CexBars, roundTo,
    rint, dLedger, entryCond, hit_pt, hit_sl]

/-- C2 witness bars: one idle bar, then a buy signal. -/
def c2WitnessBars : List Bar :=
  [ { close := 100, buySignal := false, sellSignal := false
      lPtPercent := none, lSlPercent := none, sPtPercent := none, sSlPercent := none },
    { close := 100, buySignal := true, sellSignal := false
      lPtPercent := some 2, lSlPercent := some 2, sPtPercent := none, sSlPercent := none } ]

/-- C2 witness: on the entry at bar 1 of the witness bars the guard holds
with the previous bar showing no event and no open position. -/
theorem C2_entry_guard_witness :
    (((c2WitnessBars.getD 1 dBar).buySignal = true ∨
        (c2WitnessBars.getD 1 dBar).sellSignal = true) ∧
      (1 = 0 ∨
        ((((backtest_group 10000 1 c2WitnessBars).getD 0 dLedger).entryExit = none ∧
            ((backtest_group 10000 1 c2WitnessBars).getD 0 dLedger).inTrade = false) ∨
          (((backtest_group 10000 1 c2WitnessBars).getD 0 dLedger).entryExit = some 2 ∧
            ((backtest_group 10000 1 c2WitnessBars).getD 0 dLedger).inTrade = true)))) :=
  C2_entry_guard 10000 1 c2WitnessBars 1
    (by norm_num [backtest_group, runGroup, step, carryLedger, initSt, c2WitnessBars,
      roundTo, rint, dLedger, entryCond, hit_pt, hit_sl])

/-- C10 witness bars: profit-target percent 0, so the entry close already
satisfies the exit condition; the exit is still only recorded on bar 1. -/
def c10Bars : List Bar :=
  [ { close := 100, buySignal := true, sellSignal := false
      lPtPercent := some 0, lSlPercent := some 50, sPtPercent := none, sSlPercent := none },
    { close := 100, buySignal := false, sellSignal := false
      lPtPercent := some 0, lSlPercent := some 50, sPtPercent := none, sSlPercent := none } ]

/-- C10 witness: the exit recorded on bar 1 of the witness bars is matched
by an entry on a strictly earlier bar. -/
theorem C10_exit_never_on_entry_bar_witness :
    ∃ j, j < 1 ∧ ((backtest_group 10000 1 c10Bars).getD j dLedger).entryExit = some 1 ∧
      ∀ k, j < k → k < 1 →
        ((backtest_group 10000 1 c10Bars).getD k dLedger).entryExit = none :=
  C10_exit_never_on_entry_bar 10000 1 c10Bars 1
    (by norm_num [backtest_group, runGroup, step, carryLedger, initSt, c10Bars,
      roundTo, rint, dLedger, entryCond, hit_pt, hit_sl])

/-- C5 bar: a zero close carrying a buy signal. -/
def c5Bars : List Bar :=
  [ { close := 0, buySignal := true, sellSignal := false
      lPtPercent := some 2, lSlPercent := some 2, sPtPercent := none, sSlPercent := none } ]

/-- C5 (code-bug evidence): on a bar with close 0 and a buy signal the
simulator performs the unguarded division and records a normal entry row;
no zero-close check or error path exists in backtest_group.  The
embedding's rational division by zero is total and returns 0 where the
source's numpy float division yields inf (and nan for the entry cost), so
the degenerate values land silently in the ledger. -/
theorem C5_zero_close_entry_unguarded :
    ((backtest_group 10000 1 c5Bars).getD 0 dLedger).entryExit = some 1 ∧
    ((backtest_group 10000 1 c5Bars).getD 0 dLedger).inTrade = true ∧
    ((backtest_group 10000 1 c5Bars).getD 0 dLedger).quantity = some 0 := by
  norm_num [backtest_group, runGroup, step, carryLedger, initSt, c5Bars, roundTo,
    rint, dLedger, entryCond, hit_pt, hit_sl]

lemma rint_intCast (m : ℤ) : rint (m : ℚ) = m := by
  norm_num [rint, Int.floor_intCast]

lemma roundTo_roundTo (n : ℕ) (x : ℚ) : roundTo n (roundTo n x) = roundTo n x := by
  unfold roundTo
  rw [div_mul_cancel₀ _ (pow_ne_zero n (by norm_num : (10 : ℚ) ≠ 0)), rint_intCast]

lemma some_roundTo_inj {k : ℕ} {y x : ℚ} (h : some (roundTo k y) = some x) :
    roundTo k x = x := by
  rw [← Option.some_inj.mp h, roundTo_roundTo]

lemma map_roundTo_inj {k : ℕ} {o : Option ℚ} {x : ℚ}
    (h : o.map (roundTo k) = some x) : roundTo k x = x := by
  rcases o with _ | y
  · exact Option.noConfusion h
  · rw [Option.map_some'] at h
    exact some_roundTo_inj h

lemma ite_map_roundTo_inj {c : Prop} [Decidable c] {k : ℕ} {o : Option ℚ} {x : ℚ}
    (h : (if c then o.map (roundTo k) else none) = some x) : roundTo k x = x := by
  by_cases hc : c
  · rw [if_pos hc] at h; exact map_roundTo_inj h
  · rw [if_neg hc] at h; exact Option.noConfusion h

lemma ite_none_map_roundTo_inj {c : Prop} [Decidable c] {k : ℕ} {o : Option ℚ}
    {x : ℚ} (h : (if c then none else o.map (roundTo k)) = some x) :
    roundTo k x = x := by
  by_cases hc : c
  · rw [if_pos hc] at h; exact Option.noConfusion h
  · rw [if_neg hc] at h; exact map_roundTo_inj h

/-- C9 (amended): every ledger row the simulator writes stores balances,
costs and profit/loss as 2-decimal values, exit and profit-target and
stop-loss prices as 3-decimal values, quantity as a 6-decimal value, and
the entry price as a 3-decimal value on the entry bar itself but as a
2-decimal value on carry-forward and exit bars. -/
theorem C9_rounding_policy (lev : ℚ) (s : St) (b : Bar) (x : ℚ) :
    ((step lev s b).2.startingBalance = some x → roundTo 2 x = x) ∧
    ((step lev s b).2.endingBalance = some x → roundTo 2 x = x) ∧
    ((step lev s b).2.entryCost = some x → roundTo 2 x = x) ∧
    ((step lev s b).2.exitCost = some x → roundTo 2 x = x) ∧
    ((step lev s b).2.profitLoss = some x → roundTo 2 x = x) ∧
    ((step lev s b).2.exitPrice = some x → roundTo 3 x = x) ∧
    ((step lev s b).2.lPtPrice = some x → roundTo 3 x = x) ∧
    ((step lev s b).2.lSlPrice = some x → roundTo 3 x = x) ∧
    ((step lev s b).2.sPtPrice = some x → roundTo 3 x = x) ∧
    ((step lev s b).2.sSlPrice = some x → roundTo 3 x = x) ∧
    ((step lev s b).2.quantity = some x → roundTo 6 x = x) ∧
    ((step lev s b).2.entryExit = some 1 → (step lev s b).2.entryPrice = some x →
      roundTo 3 x = x) ∧
    ((step lev s b).2.entryExit ≠ some 1 → (step lev s b).2.entryPrice = some x →
      roundTo 2 x = x) := by
  by_cases hs : s.in_trade = true
  · simp only [step]
    rw [if_pos hs]
    by_cases hh : (hit_pt s b || hit_sl s b) = true
    · rw [if_pos hh]
      simp only [carryLedger]
      exact ⟨fun h => some_roundTo_inj h, fun h => some_roundTo_inj h,
        fun h => some_roundTo_inj h, fun h => some_roundTo_inj h,
        fun h => some_roundTo_inj h, fun h => some_roundTo_inj h,
        fun h => ite_map_roundTo_inj h, fun h => ite_map_roundTo_inj h,
        fun h => ite_map_roundTo_inj h, fun h => ite_map_roundTo_inj h,
        fun h => some_roundTo_inj h,
        fun h12 _ => absurd (Option.some_inj.mp h12) (by norm_num),
        fun _ h => some_roundTo_inj h⟩
    · rw [if_neg hh]
      simp only [carryLedger]
      exact ⟨fun h => some_roundTo_inj h, fun h => Option.noConfusion h,
        fun h => some_roundTo_inj h, fun h => Option.noConfusion h,
        fun h => Option.noConfusion h, fun h => Option.noConfusion h,
        fun h => ite_map_roundTo_inj h, fun h => ite_map_roundTo_inj h,
        fun h => ite_map_roundTo_inj h, fun h => ite_map_roundTo_inj h,
        fun h => some_roundTo_inj h,
        fun h12 _ => Option.noConfusion h12,
        fun _ h => some_roundTo_inj h⟩
  · simp only [step]
    rw [if_neg hs]
    by_cases hc : entryCond s b
    · rw [if_pos hc]
      dsimp only
      exact ⟨fun h => some_roundTo_inj h, fun h => Option.noConfusion h,
        fun h => some_roundTo_inj h, fun h => Option.noConfusion h,
        fun h => Option.noConfusion h, fun h => Option.noConfusion h,
        fun h => ite_map_roundTo_inj h, fun h => ite_map_roundTo_inj h,
        fun h => ite_none_map_roundTo_inj h, fun h => ite_none_map_roundTo_inj h,
        fun h => some_roundTo_inj h,
        fun _ h => some_roundTo_inj h,
        fun h12 _ => absurd rfl h12⟩
    · rw [if_neg hc]
      exact ⟨fun h => Option.noConfusion h, fun h => Option.noConfusion h,
        fun h => Option.noConfusion h, fun h => Option.noConfusion h,
        fun h => Option.noConfusion h, fun h => Option.noConfusion h,
        fun h => Option.noConfusion h, fun h => Option.noConfusion h,
        fun h => Option.noConfusion h, fun h => Option.noConfusion h,
        fun h => Option.noConfusion h,
        fun h12 _ => Option.noConfusion h12,
        fun _ h => Option.noConfusion h⟩

/-- C9 witness state: an open long position entered at price 100.126. -/
def c9WSt : St :=
  { in_trade := true, current_balance := 10000, entry_price := 100126/1000
    quantity := 99, entry_cost := 10000, pt_price := some 200, sl_price := some 50
    trade_direction := some Dir.long, prev_entry_exit := some 1, prev_in_trade := true }

/-- C9 witness bar: neither target nor stop is hit, a carry-forward bar. -/
def c9WBar : Bar :=
  { close := 100, buySignal := false, sellSignal := false
    lPtPercent := none, lSlPercent := none, sPtPercent := none, sSlPercent := none }

/-- C9 witness: the entry price 100.13 stamped on a carry-forward bar is a
2-decimal value. -/
theorem C9_rounding_policy_witness : roundTo 2 ((10013 : ℚ)/100) = (10013 : ℚ)/100 :=
  (C9_rounding_policy 1 c9WSt c9WBar ((10013 : ℚ)/100)).2.2.2.2.2.2.2.2.2.2.2.2
    (by norm_num [step, carryLedger, c9WSt, c9WBar, hit_pt, hit_sl] <;> simp)
    (by norm_num [step, carryLedger, c9WSt, c9WBar, hit_pt, hit_sl, roundTo, rint])

/-- C9 counterexample bars: a buy entry at close 100.126 followed by a
carry-forward bar (close 100.2 hits neither the 2-percent target nor the
2-percent stop). -/
def c9Bars : List Bar :=
  [ { close := 100126/1000, buySignal := true, sellSignal := false
      lPtPercent := some 2, lSlPercent := some 2, sPtPercent := none, sSlPercent := none },
    { close := 1002/10, buySignal := false, sellSignal := false
      lPtPercent := some 2, lSlPercent := some 2, sPtPercent := none, sSlPercent := none } ]

/-- C9 counterexample: the entry bar stores the entry price to 3 decimals
(100.126), but the carry-forward bar re-stamps it rounded to 2 decimals
(100.13), which differs from the 3-decimal rounding the claim requires on
every bar of the ledger. -/
theorem C9_cex_carry_forward_entry_price :
    ((backtest_group 10000 1 c9Bars).getD 0 dLedger).entryPrice =
      some (100126/1000) ∧
    ((backtest_group 10000 1 c9Bars).getD 1 dLedger).inTrade = true ∧
    ((backtest_group 10000 1 c9Bars).getD 1 dLedger).entryExit = none ∧
    ((backtest_group 10000 1 c9Bars).getD 1 dLedger).entryPrice =
      some (10013/100) ∧
    (10013 : ℚ)/100 ≠ roundTo 3 (100126/1000) := by
  norm_num [backtest_group, runGroup, step, carryLedger, initSt, c9Bars, roundTo,
    rint, dLedger, entryCond, hit_pt, hit_sl]

end KrakenCrypto
